import Mathlib

/-
Verification development for the iptv-proxy-restreamer repository.

The repository runs two node services:
  * an hls-proxy wrapper (src/unnamed/part_000) that owns the registry of
    transcoding sessions (the activeStreams map), spawns and kills the
    ffmpeg worker processes and serves the produced segment files;
  * a backend (src/backend/src/index.js) that forwards lifecycle requests
    to the wrapper, keeps per stream display metadata (activeStreamsInfo),
    a user controlled display order (streamOrder), per stream polling
    intervals (activePolling) and a websocket broadcast hub.

Each handler is embedded as a pure state transformer.  JS Map objects are
modelled as insertion ordered association lists, timestamps and process
handles as naturals, and the spawn outcome of the external worker as an
explicit boolean parameter.  Asynchronous worker exit is modelled by the
closeEvent transition, which replays the close callback registered in
startStream.
-/

namespace IptvProxy

/-- Status values stored in the wrapper stream records; only running and
stopped ever occur in the source. -/
inductive StStatus where
  | running
  | stopped
deriving DecidableEq, Repr

/-- A record of the activeStreams map of the hls-proxy wrapper
(src/unnamed/part_000, lines 173 to 181). -/
structure PStream where
  id : String
  url : String
  proxyUrl : String
  proc : Nat
  status : StStatus
  startTime : Nat
  ignoreErrors : Bool
deriving DecidableEq, Repr

/-- JS Map.get on an insertion ordered association list. -/
def mapGet {α : Type} (id : String) (m : List (String × α)) : Option α :=
  (m.find? (fun e => e.1 == id)).map (fun e => e.2)

/-- JS Map.set: replaces in place when the key exists (keeping its
position), appends at the end otherwise. -/
def mapSet {α : Type} (id : String) (v : α) : List (String × α) → List (String × α)
  | [] => [(id, v)]
  | e :: rest => if e.1 == id then (id, v) :: rest else e :: mapSet id v rest

/-- JS Map.delete. -/
def mapDelete {α : Type} (id : String) (m : List (String × α)) : List (String × α) :=
  m.filter (fun e => e.1 != id)

/-- JS Map.has. -/
def mapHas {α : Type} (id : String) (m : List (String × α)) : Bool :=
  m.any (fun e => e.1 == id)

/-- State of the hls-proxy wrapper: the activeStreams map, the stream
directories existing on disk, the live worker processes and a counter
giving fresh process handles. -/
structure PState where
  activeStreams : List (String × PStream)
  dirs : List String
  live : List Nat
  nextProc : Nat
deriving DecidableEq, Repr

/-- fs.mkdir recursive for a stream directory. -/
def insertDir (id : String) (dirs : List String) : List String :=
  if dirs.contains id then dirs else dirs ++ [id]

/-- fs.rm recursive force for a stream directory. -/
def removeDir (id : String) (dirs : List String) : List String :=
  dirs.filter (fun d => d != id)

/-- process.kill: the worker leaves the live set; killing an already dead
process is a no-op. -/
def killProc (h : Nat) (st : PState) : PState :=
  { st with live := st.live.filter (fun p => p != h) }

/-- The ffmpeg close handler registered by startStream (part_000 lines 135
to 143): when the worker of a stream exits, if the id is still in
activeStreams its status is set to stopped and the stream directory is
removed. -/
def closeEvent (id : String) (st : PState) : PState :=
  match mapGet id st.activeStreams with
  | some s =>
      { st with
        activeStreams := mapSet id { s with status := StStatus.stopped } st.activeStreams
        dirs := removeDir id st.dirs }
  | none => st

/-- startStream of part_000 (lines 87 to 146): creates the stream
directory, then spawns ffmpeg.  A launch failure (binary missing, resource
limits) is modelled by the spawn outcome flag being false; the thrown
error then reaches the catch of the calling handler, the directory having
already been created.  On success a fresh live process handle is
returned. -/
def startStream (id : String) (spawnOk : Bool) (st : PState) : Option Nat × PState :=
  let st1 := { st with dirs := insertDir id st.dirs }
  if spawnOk then
    (some st1.nextProc,
     { st1 with nextProc := st1.nextProc + 1, live := st1.live ++ [st1.nextProc] })
  else (none, st1)

/-- Body of the POST /start request. -/
structure StartReq where
  url : Option String
  reqId : Option String
  ignoreErrors : Bool
deriving DecidableEq, Repr

/-- Responses of the POST /start handler. -/
inductive StartResp where
  | ok
  | badRequest
  | serverError
deriving DecidableEq, Repr

/-- The POST /start handler (part_000 lines 149 to 199): missing url gives
400; a supplied id is reused, otherwise the timestamp becomes the id; an
existing running stream with that id has its worker killed (its map entry
is not touched); then startStream runs and on success the record is
written to the map with status running.  On spawn failure the catch
returns 500 without writing to the map. -/
def startHandler (req : StartReq) (now : Nat) (spawnOk : Bool) (st : PState) :
    StartResp × PState :=
  match req.url with
  | none => (StartResp.badRequest, st)
  | some url =>
    let streamId := req.reqId.getD (toString now)
    let st1 :=
      match mapGet streamId st.activeStreams with
      | some ex => if ex.status = StStatus.running then killProc ex.proc st else st
      | none => st
    match startStream streamId spawnOk st1 with
    | (none, st2) => (StartResp.serverError, st2)
    | (some h, st2) =>
        let s : PStream :=
          { id := streamId
            url := url
            proxyUrl := "/stream/" ++ streamId ++ "/playlist.m3u8"
            proc := h
            status := StStatus.running
            startTime := now
            ignoreErrors := req.ignoreErrors }
        (StartResp.ok, { st2 with activeStreams := mapSet streamId s st2.activeStreams })

/-- Responses of the POST /restart/:id handler. -/
inductive RestartResp where
  | ok
  | notFound
  | serverError
deriving DecidableEq, Repr

/-- The POST /restart/:id handler (part_000 lines 202 to 256).  Unknown id
gives 404.  If the stream is running the worker is killed, the close event
of the killed worker fires during the bounded one second wait, the
directory is removed and recreated; then startStream runs and on success
the same record object is mutated in place: process, status, startTime and
ignoreErrors are overwritten while id, url and proxyUrl are untouched. -/
def restartHandler (id : String) (ign : Bool) (now : Nat) (spawnOk : Bool)
    (st : PState) : RestartResp × PState :=
  match mapGet id st.activeStreams with
  | none => (RestartResp.notFound, st)
  | some s =>
      let st1 :=
        if s.status = StStatus.running then
          let stA := closeEvent id (killProc s.proc st)
          { stA with dirs := insertDir id (removeDir id stA.dirs) }
        else st
      match startStream id spawnOk st1 with
      | (none, st2) => (RestartResp.serverError, st2)
      | (some h, st2) =>
          let s2 : PStream :=
            { s with
              proc := h
              status := StStatus.running
              startTime := now
              ignoreErrors := ign }
          (RestartResp.ok, { st2 with activeStreams := mapSet id s2 st2.activeStreams })

/-- Responses of the POST /stop/:id handler. -/
inductive StopResp where
  | success
  | notFound
deriving DecidableEq, Repr

/-- The POST /stop/:id handler (part_000 lines 259 to 271): kill the
worker, mark the record stopped, answer success; nothing else is touched
by the handler itself.  The directory removal happens only later, when the
killed worker exits and the close handler fires. -/
def stopHandler (id : String) (st : PState) : StopResp × PState :=
  match mapGet id st.activeStreams with
  | none => (StopResp.notFound, st)
  | some s =>
      let st1 := killProc s.proc st
      (StopResp.success,
       { st1 with
         activeStreams := mapSet id { s with status := StStatus.stopped } st1.activeStreams })

/-- Responses of the DELETE /stream/:id handler. -/
inductive DelResp where
  | success
  | notFound
deriving DecidableEq, Repr

/-- The DELETE /stream/:id handler (part_000 lines 274 to 297): unknown id
gives 404 with no state change; otherwise the worker is killed if running,
the entry is removed from the map and the stream directory is removed. -/
def deleteHandler (id : String) (st : PState) : DelResp × PState :=
  match mapGet id st.activeStreams with
  | none => (DelResp.notFound, st)
  | some s =>
      let st1 := if s.status = StStatus.running then killProc s.proc st else st
      let st2 := { st1 with activeStreams := mapDelete id st1.activeStreams }
      (DelResp.success, { st2 with dirs := removeDir id st2.dirs })

/-- An entry of the GET /streams listing (part_000 lines 300 to 311). -/
structure SListEntry where
  id : String
  url : String
  proxyUrl : String
  status : StStatus
  startTime : Nat
  ignoreErrors : Bool
deriving DecidableEq, Repr

/-- The GET /streams handler: projects every activeStreams value in map
order. -/
def streamsHandler (st : PState) : List SListEntry :=
  st.activeStreams.map (fun e =>
    { id := e.2.id
      url := e.2.url
      proxyUrl := e.2.proxyUrl
      status := e.2.status
      startTime := e.2.startTime
      ignoreErrors := e.2.ignoreErrors })

/-- Keys of the activeStreams map agree with the id field of the stored
record; every write in the source maintains this. -/
def keysMatch {α : Type} (idOf : α → String) (m : List (String × α)) : Prop :=
  ∀ e ∈ m, idOf e.2 = e.1

/-- An element of the module level streams array of the backend
(index.js line 77); stats payloads are opaque to the control logic and
modelled as naturals. -/
structure BStream where
  id : String
  stats : Option Nat
deriving DecidableEq, Repr

/-- The module level streams array of the backend, initialized to the
empty array at index.js line 77.  No statement of the file assigns to it
or appends to it (the streams binding at line 597 is a distinct local
constant; lines 80, 103, 110 and 121 only read it), so it is the empty
list. -/
def streamsVar : List BStream := []

/-- Outcome of one axios poll of the worker subsystem: a 200 answer with
stats, an HTTP error response with its status code, or a network error
carrying no response object. -/
inductive PollResult where
  | ok (stats : Nat)
  | httpErr (code : Nat)
  | netErr
deriving DecidableEq, Repr

/-- Observable effects of one pollStreamStatus call: whether the HTTP
poll was issued, whether updateStreamStats ran, whether an error was
logged, how many events were broadcast to observers, and whether the
five second self timeout was scheduled. -/
structure PollEffects where
  polled : Bool
  updated : Bool
  logged : Bool
  broadcasts : Nat
  rescheduled : Bool
deriving DecidableEq, Repr

/-- Helper of updateStreamStats: overwrite the stats of the first element
with the given id. -/
def setStatsFirst (id : String) (v : Nat) : List BStream → List BStream
  | [] => []
  | s :: rest =>
      if s.id == id then { s with stats := some v } :: rest
      else s :: setStatsFirst id v rest

/-- updateStreamStats (index.js lines 109 to 115): finds the stream,
overwrites its stats in place and broadcasts the full stream list once;
does nothing when the id is absent.  Returns the new array and the number
of broadcasts. -/
def updateStreamStats (streams : List BStream) (id : String) (v : Nat) :
    List BStream × Nat :=
  if streams.any (fun s => s.id == id) then (setStatsFirst id v streams, 1)
  else (streams, 0)

/-- pollStreamStatus (index.js lines 78 to 106): an id absent from the
streams array returns at the initial guard, before any HTTP request.
Otherwise the worker subsystem is polled; a 200 answer goes through
updateStreamStats; a thrown error whose response has status other than
404 is logged; a 404 response and a response-less network error are
swallowed silently.  Finally the five second self timeout is scheduled
exactly when the id is still present in the array. -/
def pollStreamStatus (streams : List BStream) (id : String) (pr : PollResult) :
    List BStream × PollEffects :=
  match streams.find? (fun s => s.id == id) with
  | none =>
      (streams,
       { polled := false, updated := false, logged := false, broadcasts := 0,
         rescheduled := false })
  | some _ =>
      let step : List BStream × PollEffects :=
        match pr with
        | PollResult.ok v =>
            let u := updateStreamStats streams id v
            (u.1,
             { polled := true, updated := true, logged := false,
               broadcasts := u.2, rescheduled := false })
        | PollResult.httpErr code =>
            (streams,
             { polled := true, updated := false, logged := decide (code ≠ 404),
               broadcasts := 0, rescheduled := false })
        | PollResult.netErr =>
            (streams,
             { polled := true, updated := false, logged := false,
               broadcasts := 0, rescheduled := false })
      (step.1, { step.2 with rescheduled := step.1.any (fun s => s.id == id) })

/-- State of the backend polling bookkeeping: the activePolling map from
stream id to interval token, a counter giving fresh interval tokens, and
the log of intervals passed to clearInterval. -/
structure PollSt where
  intervals : List (String × Nat)
  nextTok : Nat
  cleared : List Nat
deriving DecidableEq, Repr

/-- startPolling (index.js lines 135 to 143): a no-op when the id already
has an active interval; otherwise registers a fresh interval for it. -/
def startPolling (id : String) (ps : PollSt) : PollSt :=
  if mapHas id ps.intervals then ps
  else
    { ps with
      intervals := mapSet id ps.nextTok ps.intervals
      nextTok := ps.nextTok + 1 }

/-- stopPolling (index.js lines 146 to 153): when the id has an interval,
clears exactly that interval and deletes the map entry; otherwise does
nothing. -/
def stopPolling (id : String) (ps : PollSt) : PollSt :=
  match mapGet id ps.intervals with
  | some tok =>
      { ps with
        intervals := mapDelete id ps.intervals
        cleared := ps.cleared ++ [tok] }
  | none => ps

/-- Number of polling intervals registered for an id. -/
def countFor (id : String) (ps : PollSt) : Nat :=
  (ps.intervals.filter (fun e => e.1 == id)).length

/-- Cached display metadata of a stream in the backend, the values of
activeStreamsInfo (index.js lines 578 to 583): channel name, logo,
original URL and start time. -/
structure SInfo where
  channelName : String
  logo : Option String
  originalUrl : String
  startTime : Nat
deriving DecidableEq, Repr

/-- Combined state: the wrapper state the backend talks to over HTTP,
the dead module level streams array, the polling bookkeeping, the
display metadata map and the display order list. -/
structure SysState where
  proxy : PState
  streamsArr : List BStream
  pollSt : PollSt
  info : List (String × SInfo)
  order : List String
deriving DecidableEq, Repr

/-- One tick of the polling loop for an id: runs pollStreamStatus on the
streams array.  The activePolling map is untouched because the source
body of pollStreamStatus contains no clearInterval call. -/
def pollTick (sys : SysState) (id : String) (pr : PollResult) :
    SysState × PollEffects :=
  let r := pollStreamStatus sys.streamsArr id pr
  ({ sys with streamsArr := r.1 }, r.2)

/-- Responses of the POST /api/streams/reorder handler. -/
inductive ReorderResp where
  | ok
  | invalid
deriving DecidableEq, Repr

/-- The POST /api/streams/reorder handler (index.js lines 650 to 671):
rejects a missing or non array body with 400; rejects with 400 when some
id of the list is not a key of activeStreamsInfo, leaving the stored
order untouched; otherwise replaces the stored order wholesale by the
given list. -/
def reorderHandler (streamIds : Option (List String)) (sys : SysState) :
    ReorderResp × SysState :=
  match streamIds with
  | none => (ReorderResp.invalid, sys)
  | some ids =>
      if ids.all (fun id => mapHas id sys.info) then
        (ReorderResp.ok, { sys with order := ids })
      else (ReorderResp.invalid, sys)

/-- updateStreamOrder with remove set (index.js lines 160 to 166): the id
is filtered out of the order list. -/
def orderRemove (id : String) (order : List String) : List String :=
  order.filter (fun x => x != id)

/-- Responses of the backend stream handlers. -/
inductive BResp where
  | ok
  | err
deriving DecidableEq, Repr

/-- The POST /api/streams/:id/stop handler (index.js lines 673 to 684):
posts /stop/:id to the wrapper; when the wrapper answers 404 the thrown
axios error reaches the catch and nothing local changes; on success the
polling interval is stopped, the cached metadata entry is deleted and the
id is removed from the display order.  The wrapper keeps the session
record, merely marked stopped. -/
def backendStopHandler (id : String) (sys : SysState) : BResp × SysState :=
  match stopHandler id sys.proxy with
  | (StopResp.notFound, p) => (BResp.err, { sys with proxy := p })
  | (StopResp.success, p) =>
      (BResp.ok,
       { sys with
         proxy := p
         pollSt := stopPolling id sys.pollSt
         info := mapDelete id sys.info
         order := orderRemove id sys.order })

/-- A decorated stream as listed by GET /api/streams (index.js lines 622
to 630); only the id is consulted by the ordering logic, the channel name
and status ride along as payload. -/
structure DStream where
  id : String
  channelName : String
  status : StStatus
deriving DecidableEq, Repr

/-- JS Array.prototype.indexOf specialised to strings: the first index of
the element, or minus one when absent. -/
def jsIndexOf (order : List String) (x : String) : Int :=
  match order.findIdx? (fun y => y == x) with
  | some i => (i : Int)
  | none => -1

/-- The sort comparator of GET /api/streams (index.js lines 634 to 641). -/
def streamCompare (order : List String) (a b : DStream) : Int :=
  let indexA := jsIndexOf order a.id
  let indexB := jsIndexOf order b.id
  if indexA = -1 ∧ indexB = -1 then 0
  else if indexA = -1 then 1
  else if indexB = -1 then -1
  else indexA - indexB

/-- Stable insertion relative to a JS comparator: the element goes in
front of the first element it does not have to follow. -/
def sortInsert {α : Type} (cmp : α → α → Int) (x : α) : List α → List α
  | [] => [x]
  | y :: l => if cmp x y ≤ 0 then x :: y :: l else y :: sortInsert cmp x l

/-- JS Array.prototype.sort with a consistent comparator: the sort is
stable (ECMAScript 2019), and a stable comparator sort coincides
extensionally with stable insertion sort. -/
def jsSort {α : Type} (cmp : α → α → Int) : List α → List α
  | [] => []
  | x :: l => sortInsert cmp x (jsSort cmp l)

/-- The ordered listing produced by GET /api/streams: the decorated
streams sorted by the order comparator. -/
def listingSorted (order : List String) (l : List DStream) : List DStream :=
  jsSort (streamCompare order) l

/-- Position class of a stream relative to the order list: its first
index there, or the length of the order list when absent. -/
def rank (order : List String) (s : DStream) : Nat :=
  match order.findIdx? (fun y => y == s.id) with
  | some i => i
  | none => order.length

theorem mapGet_mapSet_self {α : Type} (id : String) (v : α) (m : List (String × α)) :
    mapGet id (mapSet id v m) = some v := by
  induction m with
  | nil => simp [mapGet, mapSet]
  | cons e rest ih =>
    by_cases h : e.1 = id
    · simp [mapGet, mapSet, h]
    · simp only [mapSet, beq_eq_false_iff_ne.mpr h, if_neg]
      simpa [mapGet, List.find?, beq_eq_false_iff_ne.mpr h] using ih

theorem mapSet_mapSet {α : Type} (id : String) (v w : α) (m : List (String × α)) :
    mapSet id v (mapSet id w m) = mapSet id v m := by
  induction m with
  | nil => simp [mapSet]
  | cons e rest ih =>
    by_cases h : e.1 = id
    · simp [mapSet, h]
    · simp [mapSet, beq_eq_false_iff_ne.mpr h, ih]

theorem mapGet_mapDelete_self {α : Type} (id : String) (m : List (String × α)) :
    mapGet id (mapDelete id m) = none := by
  have hnone : (mapDelete id m).find? (fun e => e.1 == id) = none := by
    rw [List.find?_eq_none]
    intro e he
    have hmem := List.of_mem_filter he
    simp only [bne_iff_ne] at hmem
    simp [hmem]
  simp [mapGet, hnone]

theorem findIdx_some_lt {α : Type} (p : α → Bool) :
    ∀ (l : List α) (i : Nat), l.findIdx? p = some i → i < l.length := by
  intro l
  induction l with
  | nil => intro i h; simp [List.findIdx?] at h
  | cons x xs ih =>
    intro i h
    rw [List.findIdx?_cons] at h
    by_cases hp : p x
    · simp [hp] at h
      simp only [List.length_cons]
      omega
    · simp [hp] at h
      obtain ⟨j, hj, hji⟩ := h
      have := ih j hj
      simp only [List.length_cons]
      omega

theorem rank_of_none (order : List String) (s : DStream)
    (h : order.findIdx? (fun y => y == s.id) = none) :
    rank order s = order.length := by
  unfold rank
  rw [h]

theorem rank_of_some (order : List String) (s : DStream) (i : Nat)
    (h : order.findIdx? (fun y => y == s.id) = some i) :
    rank order s = i := by
  unfold rank
  rw [h]

theorem jsIndexOf_of_none (order : List String) (x : String)
    (h : order.findIdx? (fun y => y == x) = none) :
    jsIndexOf order x = -1 := by
  unfold jsIndexOf
  rw [h]

theorem jsIndexOf_of_some (order : List String) (x : String) (i : Nat)
    (h : order.findIdx? (fun y => y == x) = some i) :
    jsIndexOf order x = (i : Int) := by
  unfold jsIndexOf
  rw [h]

theorem rank_le_length (order : List String) (s : DStream) :
    rank order s ≤ order.length := by
  cases h : order.findIdx? (fun y => y == s.id) with
  | none => rw [rank_of_none _ _ h]
  | some i =>
    rw [rank_of_some _ _ _ h]
    exact Nat.le_of_lt (findIdx_some_lt _ _ _ h)

theorem rank_eq_length_iff (order : List String) (s : DStream) :
    rank order s = order.length ↔ jsIndexOf order s.id = -1 := by
  cases h : order.findIdx? (fun y => y == s.id) with
  | none =>
    rw [rank_of_none _ _ h, jsIndexOf_of_none _ _ h]
    simp
  | some i =>
    have hi := findIdx_some_lt _ _ _ h
    rw [rank_of_some _ _ _ h, jsIndexOf_of_some _ _ _ h]
    constructor
    · intro hc; omega
    · intro hc; omega

theorem jsIndexOf_eq_rank (order : List String) (s : DStream)
    (h : jsIndexOf order s.id ≠ -1) :
    jsIndexOf order s.id = ((rank order s : Nat) : Int) := by
  cases hf : order.findIdx? (fun y => y == s.id) with
  | none => exact absurd (jsIndexOf_of_none _ _ hf) h
  | some i => rw [jsIndexOf_of_some _ _ _ hf, rank_of_some _ _ _ hf]

theorem streamCompare_le_iff (order : List String) (a b : DStream) :
    streamCompare order a b ≤ 0 ↔ rank order a ≤ rank order b := by
  simp only [streamCompare]
  cases hA : order.findIdx? (fun y => y == a.id) with
  | none =>
    rw [jsIndexOf_of_none _ _ hA, rank_of_none _ _ hA]
    cases hB : order.findIdx? (fun y => y == b.id) with
    | none =>
      rw [jsIndexOf_of_none _ _ hB, rank_of_none _ _ hB]
      rw [if_pos ⟨rfl, rfl⟩]
      omega
    | some j =>
      have hj := findIdx_some_lt _ _ _ hB
      rw [jsIndexOf_of_some _ _ _ hB, rank_of_some _ _ _ hB]
      rw [if_neg (by omega : ¬((-1 : Int) = -1 ∧ ((j : Nat) : Int) = -1)),
          if_pos (rfl : (-1 : Int) = -1)]
      omega
  | some i =>
    have hi := findIdx_some_lt _ _ _ hA
    rw [jsIndexOf_of_some _ _ _ hA, rank_of_some _ _ _ hA]
    cases hB : order.findIdx? (fun y => y == b.id) with
    | none =>
      rw [jsIndexOf_of_none _ _ hB, rank_of_none _ _ hB]
      rw [if_neg (by omega : ¬(((i : Nat) : Int) = -1 ∧ (-1 : Int) = -1)),
          if_neg (by omega : ¬ ((i : Nat) : Int) = -1),
          if_pos (rfl : (-1 : Int) = -1)]
      omega
    | some j =>
      have hj := findIdx_some_lt _ _ _ hB
      rw [jsIndexOf_of_some _ _ _ hB, rank_of_some _ _ _ hB]
      rw [if_neg (by omega : ¬(((i : Nat) : Int) = -1 ∧ ((j : Nat) : Int) = -1)),
          if_neg (by omega : ¬ ((i : Nat) : Int) = -1),
          if_neg (by omega : ¬ ((j : Nat) : Int) = -1)]
      omega

theorem mem_sortInsert {α : Type} (cmp : α → α → Int) (x a : α) :
    ∀ l : List α, a ∈ sortInsert cmp x l ↔ a = x ∨ a ∈ l := by
  intro l
  induction l with
  | nil => simp [sortInsert]
  | cons y l ih =>
    by_cases h : cmp x y ≤ 0
    · rw [sortInsert, if_pos h]
      simp
    · rw [sortInsert, if_neg h]
      simp [ih]
      tauto

theorem pairwise_sortInsert (order : List String) (x : DStream) :
    ∀ l : List DStream,
      l.Pairwise (fun a b => rank order a ≤ rank order b) →
      (sortInsert (streamCompare order) x l).Pairwise
        (fun a b => rank order a ≤ rank order b) := by
  intro l
  induction l with
  | nil => intro _; simp [sortInsert]
  | cons y l ih =>
    intro h
    rw [List.pairwise_cons] at h
    obtain ⟨hy, hl⟩ := h
    by_cases hc : streamCompare order x y ≤ 0
    · rw [sortInsert, if_pos hc]
      have hxy : rank order x ≤ rank order y := (streamCompare_le_iff _ _ _).mp hc
      refine List.Pairwise.cons ?_ (List.Pairwise.cons hy hl)
      intro z hz
      rcases List.mem_cons.mp hz with rfl | hz
      · exact hxy
      · exact Nat.le_trans hxy (hy z hz)
    · rw [sortInsert, if_neg hc]
      have hyx : rank order y ≤ rank order x := by
        have hno : ¬ rank order x ≤ rank order y := fun hcon =>
          hc ((streamCompare_le_iff _ _ _).mpr hcon)
        omega
      refine List.Pairwise.cons ?_ (ih hl)
      intro z hz
      rcases (mem_sortInsert _ _ _ _).mp hz with rfl | hz
      · exact hyx
      · exact hy z hz

theorem pairwise_jsSort (order : List String) :
    ∀ l : List DStream,
      (jsSort (streamCompare order) l).Pairwise
        (fun a b => rank order a ≤ rank order b) := by
  intro l
  induction l with
  | nil => simp [jsSort]
  | cons x l ih =>
    rw [jsSort]
    exact pairwise_sortInsert order x _ ih

theorem perm_sortInsert {α : Type} (cmp : α → α → Int) (x : α) :
    ∀ l : List α, List.Perm (sortInsert cmp x l) (x :: l) := by
  intro l
  induction l with
  | nil => simp [sortInsert]
  | cons y l ih =>
    by_cases h : cmp x y ≤ 0
    · rw [sortInsert, if_pos h]
    · rw [sortInsert, if_neg h]
      exact (ih.cons y).trans (List.Perm.swap x y l)

theorem perm_jsSort {α : Type} (cmp : α → α → Int) :
    ∀ l : List α, List.Perm (jsSort cmp l) l := by
  intro l
  induction l with
  | nil => simp [jsSort]
  | cons x l ih =>
    rw [jsSort]
    exact (perm_sortInsert cmp x _).trans (ih.cons x)

theorem filter_sortInsert_neg {α : Type} (cmp : α → α → Int) (p : α → Bool)
    (x : α) (hx : p x = false) :
    ∀ l : List α, (sortInsert cmp x l).filter p = l.filter p := by
  intro l
  induction l with
  | nil => simp [sortInsert, hx]
  | cons y l ih =>
    by_cases h : cmp x y ≤ 0
    · rw [sortInsert, if_pos h]
      simp [hx]
    · rw [sortInsert, if_neg h]
      simp only [List.filter_cons]
      rw [ih]

theorem filter_sortInsert_pos {α : Type} (cmp : α → α → Int) (p : α → Bool)
    (x : α) (hx : p x = true)
    (hskip : ∀ y, ¬ cmp x y ≤ 0 → p y = false) :
    ∀ l : List α, (sortInsert cmp x l).filter p = x :: l.filter p := by
  intro l
  induction l with
  | nil => simp [sortInsert, hx]
  | cons y l ih =>
    by_cases h : cmp x y ≤ 0
    · rw [sortInsert, if_pos h]
      simp [hx]
    · rw [sortInsert, if_neg h]
      simp only [List.filter_cons, hskip y h]
      simp only [ih]
      simp [hskip y h]

theorem stability_jsSort (order : List String) :
    ∀ l : List DStream,
      (jsSort (streamCompare order) l).filter
          (fun s => decide (jsIndexOf order s.id = -1)) =
        l.filter (fun s => decide (jsIndexOf order s.id = -1)) := by
  intro l
  induction l with
  | nil => rfl
  | cons x l ih =>
    rw [jsSort]
    by_cases hx : jsIndexOf order x.id = -1
    · rw [filter_sortInsert_pos _ _ x (by simp [hx]) ?_]
      · rw [ih]
        simp [hx]
      · intro y hy
        have hxr : rank order x = order.length := (rank_eq_length_iff _ _).mpr hx
        have hno : ¬ rank order x ≤ rank order y := fun hcon =>
          hy ((streamCompare_le_iff _ _ _).mpr hcon)
        have hylt : rank order y < order.length := by omega
        have : ¬ rank order y = order.length := by omega
        have hyo : ¬ jsIndexOf order y.id = -1 := fun hcon =>
          this ((rank_eq_length_iff _ _).mpr hcon)
        simp [hyo]
    · rw [filter_sortInsert_neg _ _ x (by simp [hx])]
      rw [ih]
      simp [hx]

theorem mapHas_eq_isSome {α : Type} (id : String) (m : List (String × α)) :
    mapHas id m = (mapGet id m).isSome := by
  induction m with
  | nil => rfl
  | cons e rest ih =>
    by_cases h : e.1 = id
    · simp [mapHas, mapGet, List.any_cons, List.find?_cons, h]
    · have hb : (e.1 == id) = false := beq_eq_false_iff_ne.mpr h
      simp only [mapHas, mapGet, List.any_cons, List.find?_cons, hb,
        Bool.false_or] at ih ⊢
      exact ih

/-- Demonstration fixtures used by witnesses and counterexamples. -/
def demoRunningA : PStream :=
  { id := "A"
    url := "http://src/1"
    proxyUrl := "/stream/A/playlist.m3u8"
    proc := 0
    status := StStatus.running
    startTime := 1
    ignoreErrors := false }

/-- A wrapper state holding the single running session A with its stream
directory on disk and its worker alive. -/
def demoProxySt : PState :=
  { activeStreams := [("A", demoRunningA)]
    dirs := ["A"]
    live := [0]
    nextProc := 1 }

/-- A backend system state with session A running, its metadata cached
and its id ordered first. -/
def demoSys : SysState :=
  { proxy := demoProxySt
    streamsArr := []
    pollSt := { intervals := [("A", 0)], nextTok := 1, cleared := [] }
    info := [("A", { channelName := "CNN", logo := none,
                     originalUrl := "http://src/1", startTime := 1 }),
             ("B", { channelName := "BBC", logo := none,
                     originalUrl := "http://src/2", startTime := 2 })]
    order := ["A", "B"] }

/-- C2: a reorder request whose list contains at least one id unknown to
the session info map is rejected with a validation error and leaves the
stored order completely unchanged; when every id is known the stored
order is replaced atomically and wholesale by the given list. -/
theorem claim_C2_reorder_atomic (ids : List String) (sys : SysState) :
    ((∃ id ∈ ids, mapHas id sys.info = false) →
        reorderHandler (some ids) sys = (ReorderResp.invalid, sys)) ∧
    ((∀ id ∈ ids, mapHas id sys.info = true) →
        reorderHandler (some ids) sys = (ReorderResp.ok, { sys with order := ids })) := by
  constructor
  · rintro ⟨id, hmem, hid⟩
    simp only [reorderHandler]
    rw [if_neg]
    intro hall
    rw [List.all_eq_true] at hall
    have hcon := hall id hmem
    rw [hid] at hcon
    exact Bool.false_ne_true hcon
  · intro hall
    simp only [reorderHandler]
    rw [if_pos]
    rw [List.all_eq_true]
    exact hall

/-- C2 witness: on the demonstration state, reordering to a fully known
list replaces the order wholesale, and a list containing the unknown id C
is rejected leaving the state untouched. -/
theorem claim_C2_reorder_atomic_witness :
    reorderHandler (some ["B", "A"]) demoSys =
      (ReorderResp.ok, { demoSys with order := ["B", "A"] }) ∧
    reorderHandler (some ["C", "A"]) demoSys = (ReorderResp.invalid, demoSys) := by
  constructor
  · exact (claim_C2_reorder_atomic ["B", "A"] demoSys).2 (by decide)
  · exact (claim_C2_reorder_atomic ["C", "A"] demoSys).1 ⟨"C", by decide, by decide⟩

/-- C3: the module level streams array of the backend is empty and never
written, so for every session id and every poll outcome the poll returns
at its initial not found guard: updateStreamStats never runs, no HTTP
poll of the worker subsystem is issued, no statistics event is broadcast
and the five second self timeout is never scheduled. -/
theorem claim_C3_dead_polling (id : String) (pr : PollResult) :
    pollStreamStatus streamsVar id pr =
      (streamsVar,
       { polled := false, updated := false, logged := false, broadcasts := 0,
         rescheduled := false }) := rfl

theorem pollStreamStatus_httpErr (streams : List BStream) (id : String) (c : Nat) :
    (pollStreamStatus streams id (PollResult.httpErr c)).1 = streams ∧
    (pollStreamStatus streams id (PollResult.httpErr c)).2.updated = false ∧
    (pollStreamStatus streams id (PollResult.httpErr c)).2.broadcasts = 0 ∧
    (pollStreamStatus streams id (PollResult.httpErr c)).2.polled =
      (streams.find? (fun s => s.id == id)).isSome ∧
    (pollStreamStatus streams id (PollResult.httpErr c)).2.logged =
      ((streams.find? (fun s => s.id == id)).isSome && decide (c ≠ 404)) := by
  cases hf : streams.find? (fun s => s.id == id) with
  | none => simp [pollStreamStatus, hf]
  | some s => simp [pollStreamStatus, hf]

theorem pollStreamStatus_netErr (streams : List BStream) (id : String) :
    (pollStreamStatus streams id PollResult.netErr).1 = streams ∧
    (pollStreamStatus streams id PollResult.netErr).2.updated = false ∧
    (pollStreamStatus streams id PollResult.netErr).2.broadcasts = 0 ∧
    (pollStreamStatus streams id PollResult.netErr).2.logged = false := by
  cases hf : streams.find? (fun s => s.id == id) with
  | none => simp [pollStreamStatus, hf]
  | some s => simp [pollStreamStatus, hf]

/-- C7 amended: a 404 poll response never changes the stream state, never
broadcasts, never logs and never touches the polling interval map; a poll
error carrying a non 404 response IS logged, exactly when the poll was
really issued (the id was found, as the polled flag records), and
likewise changes nothing; a poll error without a response object is
swallowed with no log at all; no poll outcome ever cancels a polling
interval, so the loop keeps its cadence. -/
theorem claim_C7_poll_errors (sys : SysState) (id : String) :
    ((pollTick sys id (PollResult.httpErr 404)).1 = sys ∧
      (pollTick sys id (PollResult.httpErr 404)).2.broadcasts = 0 ∧
      (pollTick sys id (PollResult.httpErr 404)).2.logged = false) ∧
    (∀ c, c ≠ 404 →
      (pollTick sys id (PollResult.httpErr c)).1 = sys ∧
      (pollTick sys id (PollResult.httpErr c)).2.broadcasts = 0 ∧
      (pollTick sys id (PollResult.httpErr c)).2.logged =
        (pollTick sys id (PollResult.httpErr c)).2.polled) ∧
    ((pollTick sys id PollResult.netErr).1 = sys ∧
      (pollTick sys id PollResult.netErr).2.broadcasts = 0 ∧
      (pollTick sys id PollResult.netErr).2.logged = false) ∧
    (∀ pr, ((pollTick sys id pr).1).pollSt = sys.pollSt) := by
  refine ⟨⟨?_, ?_, ?_⟩, ?_, ⟨?_, ?_, ?_⟩, ?_⟩
  · have h := pollStreamStatus_httpErr sys.streamsArr id 404
    simp only [pollTick, h.1]
  · exact (pollStreamStatus_httpErr sys.streamsArr id 404).2.2.1
  · have h := (pollStreamStatus_httpErr sys.streamsArr id 404).2.2.2.2
    simp only [pollTick]
    rw [h]
    simp
  · intro c hc
    have h := pollStreamStatus_httpErr sys.streamsArr id c
    refine ⟨by simp only [pollTick, h.1], h.2.2.1, ?_⟩
    show (pollStreamStatus sys.streamsArr id (PollResult.httpErr c)).2.logged =
      (pollStreamStatus sys.streamsArr id (PollResult.httpErr c)).2.polled
    rw [h.2.2.2.2, h.2.2.2.1]
    simp [hc]
  · have h := pollStreamStatus_netErr sys.streamsArr id
    simp only [pollTick, h.1]
  · exact (pollStreamStatus_netErr sys.streamsArr id).2.2.1
  · exact (pollStreamStatus_netErr sys.streamsArr id).2.2.2
  · intro pr
    rfl

/-- C7 witness: on a state whose streams array holds session A, a 404
poll outcome is fully absorbed, while a 500 response leaves the state and
broadcast count untouched and is logged (the poll was issued, so the
logged flag coincides with the polled flag, which evaluates to true
here). -/
theorem claim_C7_poll_errors_witness :
    (pollTick { demoSys with streamsArr := [{ id := "A", stats := none }] } "A"
        (PollResult.httpErr 404)).1 =
      { demoSys with streamsArr := [{ id := "A", stats := none }] } ∧
    (pollTick { demoSys with streamsArr := [{ id := "A", stats := none }] } "A"
        (PollResult.httpErr 500)).2.broadcasts = 0 ∧
    (pollTick { demoSys with streamsArr := [{ id := "A", stats := none }] } "A"
        (PollResult.httpErr 500)).2.logged = true := by
  refine ⟨?_, ?_, ?_⟩
  · exact (claim_C7_poll_errors
      { demoSys with streamsArr := [{ id := "A", stats := none }] } "A").1.1
  · exact ((claim_C7_poll_errors
      { demoSys with streamsArr := [{ id := "A", stats := none }] } "A").2.1 500
      (by decide)).2.1
  · have h := ((claim_C7_poll_errors
      { demoSys with streamsArr := [{ id := "A", stats := none }] } "A").2.1 500
      (by decide)).2.2
    rw [h]
    rfl

/-- C7 counterexample: with session A present in the streams array, a
poll error carrying no response object (an axios network failure, which
is not a 404 from the worker) is swallowed without any log entry, while
the claim requires every non 404 poll error to be logged; the poll was
really issued, as the polled flag shows. -/
theorem claim_C7_counterexample :
    (pollStreamStatus [{ id := "A", stats := none }] "A" PollResult.netErr).2.polled
      = true ∧
    (pollStreamStatus [{ id := "A", stats := none }] "A" PollResult.netErr).2.logged
      = false := by
  constructor <;> rfl

theorem mapSet_of_not_has {α : Type} (id : String) (v : α) :
    ∀ m : List (String × α), mapHas id m = false → mapSet id v m = m ++ [(id, v)] := by
  intro m
  induction m with
  | nil => intro _; rfl
  | cons e rest ih =>
    intro h
    simp only [mapHas, List.any_cons, Bool.or_eq_false_iff] at h
    obtain ⟨h1, h2⟩ := h
    rw [mapSet, if_neg (by simp [h1]), ih h2]
    rfl

theorem countFor_append_single (j id : String) (v : Nat) (m : List (String × Nat)) :
    ((m ++ [(id, v)]).filter (fun e => e.1 == j)).length =
      (m.filter (fun e => e.1 == j)).length + (if id = j then 1 else 0) := by
  rw [List.filter_append, List.length_append]
  by_cases h : id = j
  · simp [List.filter, h]
  · simp [List.filter, beq_eq_false_iff_ne.mpr h, h]

theorem countFor_filter_zero (id : String) (m : List (String × Nat))
    (h : mapHas id m = false) :
    (m.filter (fun e => e.1 == id)).length = 0 := by
  rw [List.length_eq_zero, List.filter_eq_nil_iff]
  intro e he hp
  have hcon : mapHas id m = true := by
    simp only [mapHas, List.any_eq_true]
    exact ⟨e, he, hp⟩
  rw [h] at hcon
  exact Bool.false_ne_true hcon

theorem countFor_mapDelete (j id : String) (m : List (String × Nat)) :
    ((mapDelete id m).filter (fun e => e.1 == j)).length ≤
      (m.filter (fun e => e.1 == j)).length :=
  List.Sublist.length_le (List.Sublist.filter _ (List.filter_sublist m))

/-- C8: at most one polling loop is active per session id.  Starting the
polling for an id that already has an active interval is a no-op;
stopping the polling for an id with no interval does nothing; stopping
the polling for an id with an interval clears exactly that one interval
and removes the entry; and the invariant that every id has at most one
registered interval is preserved by both operations. -/
theorem claim_C8_single_loop (id : String) (ps : PollSt) :
    (mapHas id ps.intervals = true → startPolling id ps = ps) ∧
    (mapGet id ps.intervals = none → stopPolling id ps = ps) ∧
    (∀ tok, mapGet id ps.intervals = some tok →
        (stopPolling id ps).cleared = ps.cleared ++ [tok] ∧
        mapHas id (stopPolling id ps).intervals = false) ∧
    ((∀ j, countFor j ps ≤ 1) →
        (∀ j, countFor j (startPolling id ps) ≤ 1) ∧
        (∀ j, countFor j (stopPolling id ps) ≤ 1)) := by
  refine ⟨?_, ?_, ?_, ?_⟩
  · intro h
    simp [startPolling, h]
  · intro h
    simp [stopPolling, h]
  · intro tok h
    refine ⟨by simp [stopPolling, h], ?_⟩
    simp only [stopPolling, h]
    rw [mapHas_eq_isSome, mapGet_mapDelete_self]
    rfl
  · intro hinv
    constructor
    · intro j
      by_cases h : mapHas id ps.intervals = true
      · simp [startPolling, h, countFor]
        exact hinv j
      · have hfalse : mapHas id ps.intervals = false := by
          revert h
          cases mapHas id ps.intervals <;> simp
        simp only [startPolling, hfalse, Bool.false_eq_true, if_neg, if_false]
        simp only [countFor, mapSet_of_not_has id ps.nextTok ps.intervals hfalse]
        rw [countFor_append_single]
        by_cases hj : id = j
        · subst hj
          have hzero := countFor_filter_zero id ps.intervals hfalse
          rw [if_pos rfl]
          omega
        · have := hinv j
          simp only [countFor] at this
          simp [hj]
          omega
    · intro j
      cases hg : mapGet id ps.intervals with
      | none =>
        simp only [stopPolling, hg]
        exact hinv j
      | some tok =>
        simp only [stopPolling, hg]
        have h1 := countFor_mapDelete j id ps.intervals
        have h2 := hinv j
        simp only [countFor] at h2 ⊢
        omega

/-- C8 witness: on the demonstration polling state, starting the already
polled session A changes nothing, stopping it clears exactly its
interval, and the single loop invariant is preserved. -/
theorem claim_C8_single_loop_witness :
    startPolling "A" demoSys.pollSt = demoSys.pollSt ∧
    (stopPolling "A" demoSys.pollSt).cleared = [0] ∧
    mapHas "A" (stopPolling "A" demoSys.pollSt).intervals = false := by
  have h := claim_C8_single_loop "A" demoSys.pollSt
  refine ⟨h.1 (by decide), ?_, ?_⟩
  · exact (h.2.2.1 0 (by decide)).1
  · exact (h.2.2.1 0 (by decide)).2

/-- C9: every ordered listing is a permutation of its input in which
every session whose id appears in the stored order comes before every
session whose id does not (positionally: whatever follows an unordered
session is unordered as well), the ordered sessions appear in exactly the
stored relative order (their stored indices are nondecreasing along the
listing), and the sessions absent from the stored order keep exactly
their incoming relative order (their sublist is unchanged). -/
theorem claim_C9_listing_order (order : List String) (l : List DStream) :
    List.Perm (listingSorted order l) l ∧
    (∀ i j : Fin (listingSorted order l).length, i < j →
        jsIndexOf order ((listingSorted order l).get i).id ≠ -1 →
        jsIndexOf order ((listingSorted order l).get j).id ≠ -1 →
        jsIndexOf order ((listingSorted order l).get i).id ≤
          jsIndexOf order ((listingSorted order l).get j).id) ∧
    (∀ i j : Fin (listingSorted order l).length, i < j →
        jsIndexOf order ((listingSorted order l).get i).id = -1 →
        jsIndexOf order ((listingSorted order l).get j).id = -1) ∧
    (listingSorted order l).filter (fun s => decide (jsIndexOf order s.id = -1)) =
      l.filter (fun s => decide (jsIndexOf order s.id = -1)) := by
  have hpw : (listingSorted order l).Pairwise
      (fun a b => rank order a ≤ rank order b) := pairwise_jsSort order l
  have hmono := List.pairwise_iff_get.mp hpw
  refine ⟨perm_jsSort _ _, ?_, ?_, stability_jsSort order l⟩
  · intro i j hij hi hj
    have h1 := hmono i j hij
    rw [jsIndexOf_eq_rank _ _ hi, jsIndexOf_eq_rank _ _ hj]
    exact_mod_cast h1
  · intro i j hij hi
    have h1 := hmono i j hij
    have hri : rank order ((listingSorted order l).get i) = order.length :=
      (rank_eq_length_iff _ _).mpr hi
    have hrj := rank_le_length order ((listingSorted order l).get j)
    have hrj2 : rank order ((listingSorted order l).get j) = order.length := by
      omega
    exact (rank_eq_length_iff _ _).mp hrj2

/-- Demonstration listing input: session a ordered second, session b
ordered first, session c unordered. -/
def demoOrder : List String := ["b", "a"]

/-- Demonstration decorated streams in fetch order a, c, b. -/
def demoStreams : List DStream :=
  [{ id := "a", channelName := "One", status := StStatus.running },
   { id := "c", channelName := "Three", status := StStatus.stopped },
   { id := "b", channelName := "Two", status := StStatus.running }]

/-- C9 witness: on the demonstration input the first two positions of
the sorted listing carry nondecreasing stored indices. -/
theorem claim_C9_listing_order_witness :
    jsIndexOf demoOrder ((listingSorted demoOrder demoStreams).get
        ⟨0, by decide⟩).id ≤
      jsIndexOf demoOrder ((listingSorted demoOrder demoStreams).get
        ⟨1, by decide⟩).id :=
  (claim_C9_listing_order demoOrder demoStreams).2.1 ⟨0, by decide⟩ ⟨1, by decide⟩
    (by decide) (by decide) (by decide)

theorem findIdx_none_of_all {α : Type} (p : α → Bool) :
    ∀ l : List α, (∀ x ∈ l, p x = false) → l.findIdx? p = none := by
  intro l
  induction l with
  | nil => intro _; rfl
  | cons x xs ih =>
    intro h
    have hx := h x (List.mem_cons_self x xs)
    rw [List.findIdx?_cons, hx]
    simp only [Bool.false_eq_true, if_false]
    rw [List.findIdx?_succ, ih (fun y hy => h y (List.mem_cons_of_mem x hy))]
    rfl

theorem jsIndexOf_orderRemove (id : String) (o : List String) :
    jsIndexOf (orderRemove id o) id = -1 := by
  apply jsIndexOf_of_none
  apply findIdx_none_of_all
  intro x hx
  have hmem := List.mem_filter.mp hx
  have hne : x ≠ id := by simpa using hmem.2
  exact beq_eq_false_iff_ne.mpr hne

theorem sortsAfter_of_removed (o2 : List String) (id : String)
    (hid0 : jsIndexOf o2 id = -1) :
    ∀ l : List DStream, ∀ i j : Fin (listingSorted o2 l).length, i < j →
      ((listingSorted o2 l).get i).id = id →
      jsIndexOf o2 ((listingSorted o2 l).get j).id = -1 := by
  intro l i j hij hid
  have hpw : (listingSorted o2 l).Pairwise (fun a b => rank o2 a ≤ rank o2 b) :=
    pairwise_jsSort o2 l
  have hmono := List.pairwise_iff_get.mp hpw i j hij
  have hi1 : jsIndexOf o2 ((listingSorted o2 l).get i).id = -1 := by
    rw [hid]
    exact hid0
  have hri := (rank_eq_length_iff _ _).mpr hi1
  have hrj := rank_le_length o2 ((listingSorted o2 l).get j)
  have hrj2 : rank o2 ((listingSorted o2 l).get j) = o2.length := by omega
  exact (rank_eq_length_iff _ _).mp hrj2

/-- C10: a successful backend stop answers ok, removes the id from the
stored display order, deletes its cached display metadata, and leaves the
session in the wrapper registry marked stopped; afterwards the id is
absent from the order, so in every sorted listing whatever follows the
stopped session is itself unordered, that is, the stopped session sorts
after every ordered session. -/
theorem claim_C10_stop_frame (sys : SysState) (id : String) (s : PStream)
    (h : mapGet id sys.proxy.activeStreams = some s) :
    (backendStopHandler id sys).1 = BResp.ok ∧
    (backendStopHandler id sys).2.order = orderRemove id sys.order ∧
    mapGet id (backendStopHandler id sys).2.info = none ∧
    mapGet id (backendStopHandler id sys).2.proxy.activeStreams =
      some { s with status := StStatus.stopped } ∧
    jsIndexOf (backendStopHandler id sys).2.order id = -1 ∧
    (∀ l : List DStream,
      ∀ i j : Fin (listingSorted (backendStopHandler id sys).2.order l).length,
        i < j →
        ((listingSorted (backendStopHandler id sys).2.order l).get i).id = id →
        jsIndexOf (backendStopHandler id sys).2.order
          ((listingSorted (backendStopHandler id sys).2.order l).get j).id = -1) := by
  have hb : backendStopHandler id sys =
      (BResp.ok,
       { sys with
         proxy := (stopHandler id sys.proxy).2
         pollSt := stopPolling id sys.pollSt
         info := mapDelete id sys.info
         order := orderRemove id sys.order }) := by
    simp only [backendStopHandler, stopHandler, h]
  refine ⟨by rw [hb], by rw [hb], ?_, ?_, ?_, ?_⟩
  · rw [hb]
    exact mapGet_mapDelete_self id sys.info
  · rw [hb]
    show mapGet id (stopHandler id sys.proxy).2.activeStreams = _
    simp only [stopHandler, h]
    exact mapGet_mapSet_self _ _ _
  · rw [hb]
    exact jsIndexOf_orderRemove id sys.order
  · have horder : (backendStopHandler id sys).2.order = orderRemove id sys.order := by
      rw [hb]
    rw [horder]
    exact sortsAfter_of_removed (orderRemove id sys.order) id
      (jsIndexOf_orderRemove id sys.order)

/-- C10 witness: stopping session A on the demonstration system removes
it from the order and metadata while the wrapper keeps it as a stopped
record. -/
theorem claim_C10_stop_frame_witness :
    (backendStopHandler "A" demoSys).1 = BResp.ok ∧
    (backendStopHandler "A" demoSys).2.order = orderRemove "A" demoSys.order ∧
    mapGet "A" (backendStopHandler "A" demoSys).2.proxy.activeStreams =
      some { demoRunningA with status := StStatus.stopped } := by
  have h := claim_C10_stop_frame demoSys "A" demoRunningA rfl
  exact ⟨h.1, h.2.1, h.2.2.2.1⟩

/-- C1 amended: when the external worker cannot be launched the start
request fails (the response is never ok) and performs no registry write:
the activeStreams map is exactly as before.  In particular an id that was
absent stays absent; but a pre-existing entry keeps its prior record,
including running status, and no error status exists in the wrapper at
all. -/
theorem claim_C1_failed_start (req : StartReq) (now : Nat) (st : PState) :
    (startHandler req now false st).1 ≠ StartResp.ok ∧
    (startHandler req now false st).2.activeStreams = st.activeStreams := by
  cases hu : req.url with
  | none =>
    constructor
    · simp [startHandler, hu]
    · simp [startHandler, hu]
  | some url =>
    cases hg : mapGet (req.reqId.getD (toString now)) st.activeStreams with
    | none =>
      constructor
      · simp [startHandler, hu, hg, startStream]
      · simp [startHandler, hu, hg, startStream]
    | some ex =>
      by_cases hs : ex.status = StStatus.running
      · constructor
        · simp [startHandler, hu, hg, hs, startStream, killProc]
        · simp [startHandler, hu, hg, hs, startStream, killProc]
      · constructor
        · simp [startHandler, hu, hg, hs, startStream]
        · simp [startHandler, hu, hg, hs, startStream]

/-- C1 counterexample: a creation request that reuses the id of the
running session A and fails to spawn returns the error response yet
leaves the registry entry for A present with running status, neither
absent nor in an error status as the claim requires. -/
theorem claim_C1_counterexample :
    (startHandler
        { url := some "http://src/2", reqId := some "A", ignoreErrors := false }
        7 false demoProxySt).1 = StartResp.serverError ∧
    (mapGet "A"
        (startHandler
          { url := some "http://src/2", reqId := some "A", ignoreErrors := false }
          7 false demoProxySt).2.activeStreams).map (fun s => s.status) =
      some StStatus.running := by
  constructor <;> rfl

/-- C4: restarting an unknown id fails with not found and changes no
state; restarting an existing session succeeds and stores a record that
keeps the prior id, source url and proxy url, carries a fresh worker
handle, running status, the fresh startedAt timestamp and the requested
ignoreErrors flag.  The record literal in the conclusion lists every
field the registry stores, so nothing recorded earlier (the source keeps
no statistics on the record) survives the restart. -/
theorem claim_C4_restart (st : PState) (id : String) (ign : Bool) (now : Nat) :
    (mapGet id st.activeStreams = none →
        restartHandler id ign now true st = (RestartResp.notFound, st)) ∧
    (∀ s, mapGet id st.activeStreams = some s →
        (restartHandler id ign now true st).1 = RestartResp.ok ∧
        mapGet id (restartHandler id ign now true st).2.activeStreams =
          some
            { id := s.id
              url := s.url
              proxyUrl := s.proxyUrl
              proc := st.nextProc
              status := StStatus.running
              startTime := now
              ignoreErrors := ign }) := by
  constructor
  · intro h
    simp [restartHandler, h]
  · intro s h
    by_cases hs : s.status = StStatus.running
    · constructor
      · simp [restartHandler, h, hs, startStream]
      · simp [restartHandler, h, hs, startStream, closeEvent, killProc,
          mapGet_mapSet_self]
    · constructor
      · simp [restartHandler, h, hs, startStream]
      · simp [restartHandler, h, hs, startStream, mapGet_mapSet_self]

/-- C4 witness: restarting the running demonstration session A with the
flag toggled keeps id and url, stores the fresh timestamp and the fresh
worker handle. -/
theorem claim_C4_restart_witness :
    (restartHandler "A" true 9 true demoProxySt).1 = RestartResp.ok ∧
    mapGet "A" (restartHandler "A" true 9 true demoProxySt).2.activeStreams =
      some
        { id := "A"
          url := "http://src/1"
          proxyUrl := "/stream/A/playlist.m3u8"
          proc := 1
          status := StStatus.running
          startTime := 9
          ignoreErrors := true } :=
  (claim_C4_restart demoProxySt "A" true 9).2 demoRunningA rfl

theorem filter_bne_idem (h : Nat) (l : List Nat) :
    (l.filter (fun p => p != h)).filter (fun p => p != h) =
      l.filter (fun p => p != h) := by
  rw [List.filter_filter]
  congr 1
  funext a
  exact Bool.and_self _

/-- C5 amended: stopping an existing session answers success, marks
exactly its record stopped while keeping it in the registry, touches no
directory in the handler itself, and is idempotent: a second stop
answers success again and leaves the state identical.  However, when the
killed worker exits, the registered close handler removes the stream
directory, so the working area artifacts of a previously running session
do not remain on disk. -/
theorem claim_C5_stop (st : PState) (id : String) (s : PStream)
    (h : mapGet id st.activeStreams = some s) :
    (stopHandler id st).1 = StopResp.success ∧
    (stopHandler id st).2.activeStreams =
      mapSet id { s with status := StStatus.stopped } st.activeStreams ∧
    (stopHandler id st).2.dirs = st.dirs ∧
    mapGet id (stopHandler id st).2.activeStreams =
      some { s with status := StStatus.stopped } ∧
    (stopHandler id (stopHandler id st).2).1 = StopResp.success ∧
    (stopHandler id (stopHandler id st).2).2 = (stopHandler id st).2 ∧
    (closeEvent id (stopHandler id st).2).dirs = removeDir id st.dirs := by
  have hshape : stopHandler id st =
      (StopResp.success,
       { activeStreams := mapSet id { s with status := StStatus.stopped }
           st.activeStreams
         dirs := st.dirs
         live := st.live.filter (fun p => p != s.proc)
         nextProc := st.nextProc }) := by
    simp [stopHandler, h, killProc]
  have hg2 : mapGet id (stopHandler id st).2.activeStreams =
      some { s with status := StStatus.stopped } := by
    rw [hshape]
    exact mapGet_mapSet_self _ _ _
  refine ⟨by rw [hshape], by rw [hshape], by rw [hshape], hg2, ?_, ?_, ?_⟩
  · rw [hshape]
    simp [stopHandler, mapGet_mapSet_self, killProc]
  · rw [hshape]
    simp [stopHandler, mapGet_mapSet_self, killProc, mapSet_mapSet, filter_bne_idem]
  · rw [hshape]
    simp [closeEvent, mapGet_mapSet_self]

/-- C5 witness: stopping the running demonstration session A succeeds,
keeps the record with stopped status and is idempotent. -/
theorem claim_C5_stop_witness :
    (stopHandler "A" demoProxySt).1 = StopResp.success ∧
    mapGet "A" (stopHandler "A" demoProxySt).2.activeStreams =
      some { demoRunningA with status := StStatus.stopped } ∧
    (stopHandler "A" (stopHandler "A" demoProxySt).2).2 =
      (stopHandler "A" demoProxySt).2 := by
  have h := claim_C5_stop demoProxySt "A" demoRunningA rfl
  exact ⟨h.1, h.2.2.2.1, h.2.2.2.2.2.1⟩

/-- C5 counterexample: the demonstration session A is running with its
working directory on disk; after stopping A and letting the killed worker
exit, the directory is gone, refuting the clause that the working area
artifacts remain on disk. -/
theorem claim_C5_counterexample :
    demoProxySt.dirs = ["A"] ∧
    (closeEvent "A" (stopHandler "A" demoProxySt).2).dirs = [] := by
  constructor <;> rfl

/-- C6: deleting an unknown session id fails with not found and changes
no state; deleting an existing session answers success, removes its
record from the registry and its working directory from disk, and the
subsequent listing no longer contains the id (using the invariant that
the map keys agree with the stored record ids, which every write of the
source maintains). -/
theorem claim_C6_delete (st : PState) (id : String) :
    (mapGet id st.activeStreams = none →
        deleteHandler id st = (DelResp.notFound, st)) ∧
    (∀ s, mapGet id st.activeStreams = some s →
        keysMatch PStream.id st.activeStreams →
        (deleteHandler id st).1 = DelResp.success ∧
        mapGet id (deleteHandler id st).2.activeStreams = none ∧
        id ∉ (deleteHandler id st).2.dirs ∧
        id ∉ (streamsHandler (deleteHandler id st).2).map SListEntry.id) := by
  constructor
  · intro h
    simp [deleteHandler, h]
  · intro s h hkeys
    have hshape : (deleteHandler id st).2.activeStreams =
          mapDelete id st.activeStreams ∧
        (deleteHandler id st).2.dirs = removeDir id st.dirs ∧
        (deleteHandler id st).1 = DelResp.success := by
      by_cases hs : s.status = StStatus.running
      · simp [deleteHandler, h, hs, killProc]
      · simp [deleteHandler, h, hs]
    refine ⟨hshape.2.2, ?_, ?_, ?_⟩
    · rw [hshape.1]
      exact mapGet_mapDelete_self id st.activeStreams
    · rw [hshape.2.1]
      intro hmem
      have hf := (List.mem_filter.mp hmem).2
      simp at hf
    · rw [show streamsHandler (deleteHandler id st).2 =
          ((deleteHandler id st).2.activeStreams).map (fun e =>
            { id := e.2.id, url := e.2.url, proxyUrl := e.2.proxyUrl,
              status := e.2.status, startTime := e.2.startTime,
              ignoreErrors := e.2.ignoreErrors }) from rfl]
      rw [hshape.1]
      intro hmem
      rw [List.map_map, List.mem_map] at hmem
      obtain ⟨e, he, heq⟩ := hmem
      have he2 := (List.mem_filter.mp he).2
      have hein : e ∈ st.activeStreams := (List.mem_filter.mp he).1
      have hkey := hkeys e hein
      simp only [Function.comp] at heq
      rw [hkey] at heq
      rw [heq] at he2
      simp at he2

/-- C6 witness: deleting the demonstration session A succeeds, removes
it from the registry and the disk, and the listing excludes it. -/
theorem claim_C6_delete_witness :
    (deleteHandler "A" demoProxySt).1 = DelResp.success ∧
    mapGet "A" (deleteHandler "A" demoProxySt).2.activeStreams = none ∧
    "A" ∉ (deleteHandler "A" demoProxySt).2.dirs := by
  have h := (claim_C6_delete demoProxySt "A").2 demoRunningA rfl
    (by unfold keysMatch; decide)
  exact ⟨h.1, h.2.1, h.2.2.1⟩

end IptvProxy
